import Mathlib

/-!
# A shallow embedding of the PKeno round/settlement/wallet core

This file embeds the core logic of `main_app.py` and the data model of
`db_setup.py` into Lean 4 and proves the testable properties stated in the
specification.  Monetary amounts (Python floats) are modelled as rationals;
database rows are records in in-memory lists; an async session commit is the
pure state transition performed by the corresponding handler.
-/

namespace Keno

/-- Constant `GAME_INTERVAL_SECONDS` from `main_app.py` (time between draws, seconds). -/
def GAME_INTERVAL_SECONDS : Int := 60

/-- Constant `MIN_BET_AMOUNT` from `main_app.py`. -/
def MIN_BET_AMOUNT : ℚ := 5

/-- Constant `KENO_MAX_NUMBERS` from `main_app.py` (the draw domain is `[1, 80]`). -/
def KENO_MAX_NUMBERS : Nat := 80

/-- Constant `KENO_DRAW_COUNT` from `main_app.py` (20 numbers drawn per round). -/
def KENO_DRAW_COUNT : Nat := 20

/-- Constant `KENO_MAX_PICKS` from `main_app.py` (at most 10 picks per bet). -/
def KENO_MAX_PICKS : Nat := 10

/-- The literal 5-second betting cutoff used in `play_command` and
`button_handler` (`(next_draw - utcnow).total_seconds() <= 5`). -/
def BET_CUTOFF_SECONDS : Int := 5

/-- Row of table `users` (`db_setup.py`, class `User`). -/
structure User where
  telegram_id : Nat
  vault_balance : ℚ
  playground_balance : ℚ
  is_admin : Bool := false
deriving DecidableEq

/-- Row of table `transactions` (`db_setup.py`, class `Transaction`). -/
structure Transaction where
  user_id : Nat
  amount : ℚ
  type : String
  status : String
  request_details : String
deriving DecidableEq

/-- Row of table `keno_rounds` (`db_setup.py`, class `KenoRound`); the
`winning_numbers` property decodes the stored JSON list. -/
structure KenoRound where
  round_id : Nat
  winning_numbers : List Nat
deriving DecidableEq

/-- Row of table `bets` (`db_setup.py`, class `Bet`). -/
structure Bet where
  id : Nat
  user_id : Nat
  round_id : Nat
  amount : ℚ
  selected_numbers : List Nat
  matched_count : Nat := 0
  payout_multiplier : ℚ := 0
  payout_amount : ℚ := 0
  is_settled : Bool := false
deriving DecidableEq

/-- The whole database: the four tables. -/
structure DBState where
  users : List User
  transactions : List Transaction
  rounds : List KenoRound
  bets : List Bet
deriving DecidableEq

/-- Query `select(User).where(User.telegram_id == tg_id)` followed by `.first()`. -/
def lookup_user (users : List User) (tgId : Nat) : Option User :=
  users.find? (fun u => u.telegram_id == tgId)

/-- Committing a field update on a `User` row: every row with this
`telegram_id` takes the new value. -/
def write_user (users : List User) (tgId : Nat) (u : User) : List User :=
  users.map (fun v => if v.telegram_id == tgId then u else v)

/-- The `request_details` JSON written with a WIN transaction in
`settle_all_bets` (braces elided; it records the bet id and round id). -/
def win_details (betId roundId : Nat) : String :=
  "bet_id: " ++ toString betId ++ ", round_id: " ++ toString roundId

/-- Value `len(selected_set.intersection(winning_set))` in `settle_all_bets`:
the size of the intersection of the two lists viewed as sets. -/
def matched_count_of (selected winning : List Nat) : Nat :=
  (selected.dedup.filter (fun x => decide (x ∈ winning))).length

/-- The placeholder payout table of `settle_all_bets`: multiplier 0 below 5
matches, `matched * 2.0` from 5 matches on. -/
def payout_multiplier_of (matched : Nat) : ℚ :=
  if 5 ≤ matched then (matched : ℚ) * 2 else 0

/-- The updated bet row produced for one bet by `settle_all_bets`
(lines 149-165 of `main_app.py`). -/
def settled_bet (winning : List Nat) (bet : Bet) : Bet :=
  let m := matched_count_of bet.selected_numbers winning
  let mult := payout_multiplier_of m
  { bet with
      matched_count := m
      payout_multiplier := mult
      payout_amount := bet.amount * mult
      is_settled := true }

/-- The per-bet commit of `settle_all_bets` (lines 142-184 of
`main_app.py`): look the owner up, score the bet, mark it settled, and when
the payout is positive credit `playground_balance` and append one WIN
transaction.  When the owner row is missing the loop `continue`s and the
state is unchanged. -/
def settle_bet_commit (winning : List Nat) (roundId : Nat) (st : DBState)
    (bet : Bet) : DBState :=
  match lookup_user st.users bet.user_id with
  | none => st
  | some user =>
    let b := settled_bet winning bet
    let st1 := { st with bets := st.bets.map (fun x => if x.id == bet.id then b else x) }
    if 0 < b.payout_amount then
      { st1 with
          users := write_user st1.users bet.user_id
            { user with playground_balance := user.playground_balance + b.payout_amount }
          transactions := st1.transactions ++
            [⟨bet.user_id, b.payout_amount, "WIN", "COMPLETED", win_details bet.id roundId⟩] }
    else st1

/-- The loop body of `settle_all_bets` over the fetched bets.  After each
per-bet commit the handler `await`s `context.bot.send_message`; that call is
not guarded by any `try`, so when the notification oracle reports a failure
the exception propagates: the already committed state is kept, the remaining
bets are not processed, and the second component is `false` (the call
raised). -/
def settle_loop (winning : List Nat) (roundId : Nat) (notify_ok : Bet → Bool) :
    DBState → List Bet → DBState × Bool
  | st, [] => (st, true)
  | st, b :: rest =>
    match lookup_user st.users b.user_id with
    | none => settle_loop winning roundId notify_ok st rest
    | some _ =>
      let st1 := settle_bet_commit winning roundId st b
      if notify_ok b then settle_loop winning roundId notify_ok st1 rest
      else (st1, false)

/-- Function `settle_all_bets` (`main_app.py` lines 130-199): fetch the round's
unsettled bets once, then run the loop.  The boolean is `true` when the call
returned normally and `false` when a notification failure raised out of it. -/
def settle_all_bets (st : DBState) (roundId : Nat) (winning : List Nat)
    (notify_ok : Bet → Bool) : DBState × Bool :=
  settle_loop winning roundId notify_ok st
    (st.bets.filter (fun b => b.round_id == roundId && !b.is_settled))

/-- Remove and return the element at index `i` of a list, keeping the
remainder in order (one without-replacement selection step). -/
def pick_at : List Nat → Nat → Option (Nat × List Nat)
  | [], _ => none
  | x :: xs, 0 => some (x, xs)
  | x :: xs, i + 1 =>
    match pick_at xs i with
    | none => none
    | some (y, rest) => some (y, x :: rest)

/-- The selection core of `random.sample`: repeatedly remove a seed-chosen
element from the remaining pool, `k` times. -/
def sample_loop (seed : Nat → Nat) : Nat → List Nat → List Nat
  | 0, _ => []
  | k + 1, pool =>
    match pick_at pool (seed k % pool.length) with
    | none => []
    | some (x, rest) => x :: sample_loop seed k rest

/-- Call `random.sample(range(1, domain_size + 1), draw_count)` as made by
`execute_keno_draw`: Python raises
`ValueError("Sample larger than population or is negative")` exactly when
`draw_count < 0` or `draw_count` exceeds the population size (the
population `range(1, domain_size + 1)` is empty for `domain_size ≤ 0`);
otherwise it returns `draw_count` distinct values of `[1, domain_size]`. -/
def random_sample (seed : Nat → Nat) (domain_size draw_count : Int) :
    Except String (List Nat) :=
  if draw_count < 0 ∨ ((List.range' 1 domain_size.toNat).length : Int) < draw_count then
    .error "ValueError: Sample larger than population or is negative"
  else .ok (sample_loop seed draw_count.toNat (List.range' 1 domain_size.toNat))

/-- Function `execute_keno_draw` (`main_app.py` lines 110-128): sample 20 of 80,
sort ascending, and commit a new `KenoRound` row.  `keno_rounds.round_id`
is declared `unique=True` in `db_setup.py`, so the commit raises an
integrity error when a row with this `round_id` already exists; the
function performs no prior existence check. -/
def execute_keno_draw (st : DBState) (roundId : Nat) (seed : Nat → Nat) :
    Except String (DBState × List Nat) :=
  match random_sample seed (KENO_MAX_NUMBERS : Int) (KENO_DRAW_COUNT : Int) with
  | .error e => .error e
  | .ok nums =>
    let winning := nums.insertionSort (· ≤ ·)
    if st.rounds.any (fun r => r.round_id == roundId) then
      .error "IntegrityError: duplicate key value violates unique constraint on keno_rounds.round_id"
    else .ok ({ st with rounds := st.rounds ++ [⟨roundId, winning⟩] }, winning)

/-- The draw-then-settle part of one `run_keno_game` tick (`main_app.py`
lines 251-256): `execute_keno_draw` then `settle_all_bets`; an exception
raised by the draw commit propagates before settlement is reached. -/
def draw_and_settle (st : DBState) (roundId : Nat) (seed : Nat → Nat)
    (notify_ok : Bet → Bool) : Except String (DBState × Bool) :=
  match execute_keno_draw st roundId seed with
  | .error e => .error e
  | .ok (st1, winning) => .ok (settle_all_bets st1 roundId winning notify_ok)

/-- The two errors the bet-confirmation path of `button_handler` reports. -/
inductive BetError
  | InsufficientFunds
  | BettingClosed
deriving DecidableEq

/-- The `request_details` JSON written with a BET transaction
(braces elided). -/
def bet_details (roundId picksCount : Nat) : String :=
  "round_id: " ++ toString roundId ++ ", picks_count: " ++ toString picksCount

/-- The commit half of the `confirm_bet` branch of `button_handler`
(`main_app.py` lines 595-633), given the `User` row the handler read
earlier in its own session: check the snapshot's balance, check the
5-second cutoff against the current `next_draw_time`, then debit the
snapshot's balance, insert the `Bet` row for `betRoundId`, and insert the
BET transaction — all committed together. -/
def confirm_bet_commit (st : DBState) (user : User) (now next_draw : Int)
    (tgId betRoundId : Nat) (picks : List Nat) (amount : ℚ) (newBetId : Nat) :
    Except BetError DBState :=
  if user.playground_balance < amount then .error .InsufficientFunds
  else if next_draw - now ≤ BET_CUTOFF_SECONDS then .error .BettingClosed
  else .ok { st with
    users := write_user st.users tgId
      { user with playground_balance := user.playground_balance - amount }
    bets := st.bets ++
      [{ id := newBetId, user_id := tgId, round_id := betRoundId,
         amount := amount, selected_numbers := picks }]
    transactions := st.transactions ++
      [⟨tgId, amount, "BET", "COMPLETED", bet_details betRoundId picks.length⟩] }

/-- The full `confirm_bet` branch of `button_handler`: read the user row,
then run the commit half; a missing row is reported as insufficient
balance (`if not user or user.playground_balance < amount`). -/
def confirm_bet (st : DBState) (now next_draw : Int) (tgId betRoundId : Nat)
    (picks : List Nat) (amount : ℚ) (newBetId : Nat) : Except BetError DBState :=
  match lookup_user st.users tgId with
  | none => .error .InsufficientFunds
  | some user =>
    confirm_bet_commit st user now next_draw tgId betRoundId picks amount newBetId

/-- The read-read-commit-commit interleaving of two concurrent
`button_handler` confirmations for the same account: each handler runs in
its own session and `await`s between its user read and its commit, so both
reads can observe the initial state before either commit lands; the two
commits are then applied in order, each checking and debiting its own
stale snapshot.  Returns the final state and each confirmation's success
flag. -/
def race_two_bets (st : DBState) (now next_draw : Int) (tgId roundId : Nat)
    (picks : List Nat) (amount : ℚ) : DBState × Bool × Bool :=
  match lookup_user st.users tgId with
  | none => (st, false, false)
  | some u =>
    match confirm_bet_commit st u now next_draw tgId roundId picks amount 1 with
    | .error _ =>
      match confirm_bet_commit st u now next_draw tgId roundId picks amount 2 with
      | .error _ => (st, false, false)
      | .ok st2 => (st2, false, true)
    | .ok st1 =>
      match confirm_bet_commit st1 u now next_draw tgId roundId picks amount 2 with
      | .error _ => (st1, true, false)
      | .ok st2 => (st2, true, true)

/-- The parsing loop of `handle_picks_and_bet` (`main_app.py` lines
532-537): keep a submitted value only when it lies in
`[1, KENO_MAX_NUMBERS]` and was not already kept — out-of-range values and
duplicates are silently dropped, not rejected. -/
def filter_picks (tokens : List Int) : List Nat :=
  tokens.foldl
    (fun acc p =>
      if 1 ≤ p ∧ p ≤ (KENO_MAX_NUMBERS : Int) ∧ p.toNat ∉ acc then acc ++ [p.toNat]
      else acc) []

/-- The validation of `handle_picks_and_bet` (`main_app.py` lines
530-547): filter the submission, sort it, and accept exactly when
`1 ≤ len(picks) ≤ KENO_MAX_PICKS`; otherwise reply with the
invalid-number-of-picks error and keep no state. -/
def handle_picks_and_bet (tokens : List Int) : Except String (List Nat) :=
  let picks := (filter_picks tokens).insertionSort (· ≤ ·)
  if 1 ≤ picks.length ∧ picks.length ≤ KENO_MAX_PICKS then .ok picks
  else .error "Invalid number of picks"

/-- The only stake offered by the confirmation keyboard of
`handle_picks_and_bet` (`confirm_bet:{MIN_BET_AMOUNT}`). -/
def keyboard_bet_amount : ℚ :=
  MIN_BET_AMOUNT

/-- The `<vault|play>` source argument of `/transfer`. -/
inductive TransferSource
  | vault
  | play
deriving DecidableEq

/-- The sub-balance the transfer draws from. -/
def source_balance (u : User) : TransferSource → ℚ
  | .vault => u.vault_balance
  | .play => u.playground_balance

/-- Function `transfer_command` (`main_app.py` lines 423-487): validate the amount,
read the user, check the source sub-balance, and on success move the
amount between `vault_balance` and `playground_balance` and commit a
TRANSFER_OUT/TRANSFER_IN transaction pair of the same amount on the same
account; on insufficient funds return with no mutation. -/
def transfer_command (st : DBState) (tgId : Nat) (amount : ℚ)
    (source : TransferSource) : Except String DBState :=
  if amount ≤ 0 then .error "Invalid amount"
  else
    match lookup_user st.users tgId with
    | none => .error "User not found"
    | some user =>
      match source with
      | .vault =>
        if user.vault_balance < amount then .error "InsufficientFunds"
        else .ok { st with
          users := write_user st.users tgId
            { user with vault_balance := user.vault_balance - amount,
                        playground_balance := user.playground_balance + amount }
          transactions := st.transactions ++
            [⟨tgId, amount, "TRANSFER_OUT_V", "COMPLETED", "from: vault"⟩,
             ⟨tgId, amount, "TRANSFER_IN_P", "COMPLETED", "to: play"⟩] }
      | .play =>
        if user.playground_balance < amount then .error "InsufficientFunds"
        else .ok { st with
          users := write_user st.users tgId
            { user with playground_balance := user.playground_balance - amount,
                        vault_balance := user.vault_balance + amount }
          transactions := st.transactions ++
            [⟨tgId, amount, "TRANSFER_OUT_P", "COMPLETED", "from: play"⟩,
             ⟨tgId, amount, "TRANSFER_IN_V", "COMPLETED", "to: vault"⟩] }

/-- The Redis keys `current_round_id` and `next_draw_time`; `none` for a
key that is unset (or holds an empty string, which the code treats the
same way). -/
structure CacheState where
  current_round_id : Option Nat
  next_draw_time : Option Int
deriving DecidableEq

/-- Function `get_current_round_id` (`main_app.py` lines 91-97): `none` for the
whole cache models an unavailable Redis client. -/
def get_current_round_id (cache : Option CacheState) : Nat :=
  match cache with
  | none => 1
  | some c =>
    match c.current_round_id with
    | none => 1
    | some r => r

/-- Function `get_next_draw_time` (`main_app.py` lines 99-106). -/
def get_next_draw_time (cache : Option CacheState) (now : Int) : Int :=
  match cache with
  | none => now + GAME_INTERVAL_SECONDS
  | some c =>
    match c.next_draw_time with
    | none => now + GAME_INTERVAL_SECONDS
    | some t => t

/-- The seeding step at the top of `run_keno_game` (`main_app.py` lines
232-235): with a reachable Redis holding no `current_round_id`, store
round 1 and a first draw 10 seconds ahead; an unavailable client is left
alone. -/
def seed_round_state (cache : Option CacheState) (now : Int) : Option CacheState :=
  match cache with
  | none => none
  | some c =>
    match c.current_round_id with
    | none => some { current_round_id := some 1, next_draw_time := some (now + 10) }
    | some _ => some c

/-! ## Concrete fixtures used by witnesses and counterexamples -/

/-- The all-zero seed; with it the sampler always removes the head of the
remaining pool, so the draw of round constants (80, 20) is `[1, …, 20]`. -/
def seed0 : Nat → Nat := fun _ => 0

/-- The winning set `[1, …, 20]` produced by `seed0`. -/
def w20 : List Nat := List.range' 1 KENO_DRAW_COUNT

/-- One account, no transactions, round 1 already drawn, and two unsettled
bets on round 1: bet 1 matches five winning numbers, bet 2 matches none. -/
def stC2 : DBState :=
  { users := [⟨1, 0, 0, false⟩]
    transactions := []
    rounds := [⟨1, w20⟩]
    bets := [⟨1, 1, 1, 10, [1, 2, 3, 4, 5], 0, 0, 0, false⟩,
             ⟨2, 1, 1, 10, [21, 22, 23, 24, 25], 0, 0, 0, false⟩] }

/-- A notification oracle whose send fails exactly for bet 1. -/
def c2_notify : Bet → Bool := fun b => !(b.id == 1)

/-- Settling round 1 of `stC2` when the notification for bet 1 fails. -/
def c2_result : DBState × Bool := settle_all_bets stC2 1 w20 c2_notify

/-- A state in which round 1 already has a persisted winning set and one
bet on round 1 is still unsettled. -/
def stC3 : DBState :=
  { users := [⟨1, 0, 0, false⟩]
    transactions := []
    rounds := [⟨1, w20⟩]
    bets := [⟨1, 1, 1, 10, [1, 2, 3, 4, 5], 0, 0, 0, false⟩] }

/-- The duplicate-round integrity error raised by the draw commit. -/
def dup_round_error : String :=
  "IntegrityError: duplicate key value violates unique constraint on keno_rounds.round_id"

/-- A state whose single bet on round 1 is already settled. -/
def stC7 : DBState :=
  { users := [⟨1, 0, 100, false⟩]
    transactions := [⟨1, 100, "WIN", "COMPLETED", win_details 1 1⟩]
    rounds := [⟨1, w20⟩]
    bets := [⟨1, 1, 1, 10, [1, 2, 3, 4, 5], 5, 10, 100, true⟩] }

/-- One account holding 0 playground funds with one unsettled
five-match bet of stake 10 on the drawn round 1. -/
def stC1 : DBState :=
  { users := [⟨1, 0, 0, false⟩]
    transactions := []
    rounds := [⟨1, w20⟩]
    bets := [⟨1, 1, 1, 10, [1, 2, 3, 4, 5], 0, 0, 0, false⟩] }

/-- The bet of `stC1`. -/
def betC1 : Bet := ⟨1, 1, 1, 10, [1, 2, 3, 4, 5], 0, 0, 0, false⟩

/-- One account with 50 in the vault and nothing in the playground. -/
def stC5 : DBState :=
  { users := [⟨1, 50, 0, false⟩], transactions := [], rounds := [], bets := [] }

/-- One account with 100 playground funds; round 1 already drawn, the next
round's window open. -/
def stC4 : DBState :=
  { users := [⟨1, 0, 100, false⟩], transactions := [], rounds := [⟨1, w20⟩], bets := [] }

/-- One account whose playground balance is exactly one stake of 10. -/
def stC9 : DBState :=
  { users := [⟨1, 0, 10, false⟩], transactions := [], rounds := [], bets := [] }

/-! ## Helper lemmas -/

/-- A found user row carries the telegram id it was selected by. -/
theorem lookup_user_telegram_id (users : List User) (tgId : Nat) (u : User)
    (h : lookup_user users tgId = some u) : u.telegram_id = tgId := by
  have := List.find?_some h
  simpa using this

/-- After writing a row for `tgId`, looking `tgId` up returns the written
row (provided a row for `tgId` existed and the new row keeps the id). -/
theorem lookup_write_user (users : List User) (tgId : Nat) (u v : User)
    (hv : v.telegram_id = tgId) (h : lookup_user users tgId = some u) :
    lookup_user (write_user users tgId v) tgId = some v := by
  induction users with
  | nil => simp [lookup_user] at h
  | cons a l ih =>
    by_cases ha : a.telegram_id = tgId
    · have hw : write_user (a :: l) tgId v = v :: write_user l tgId v := by
        simp [write_user, ha]
      unfold lookup_user
      rw [hw]
      exact List.find?_cons_of_pos _ (by simp [hv])
    · have hw : write_user (a :: l) tgId v = a :: write_user l tgId v := by
        simp [write_user, ha]
      have hba : (a.telegram_id == tgId) = false := beq_eq_false_iff_ne.mpr ha
      have h' : lookup_user l tgId = some u := by
        unfold lookup_user at h
        simpa [List.find?_cons, hba] using h
      unfold lookup_user
      rw [hw]
      simpa [List.find?_cons, hba] using ih h'

/-! ## Theorems -/

/-- C1: for every bet the `settle_all_bets` loop settles (one whose owner
row exists): the recorded `matched_count` is the size of the intersection
of the bet's numbers with the winning numbers; the multiplier is 0 below 5
matches and `matched * 2.0` otherwise; `payout_amount = stake * multiplier`;
the bet row is marked settled; with a positive payout the owner's
`playground_balance` grows by exactly the payout and exactly one WIN
transaction of that amount with status COMPLETED is appended, while with a
zero payout no transaction is created and no balance changes though the
bet is still marked settled. -/
theorem c1_settlement_scores_and_pays (st : DBState) (winning : List Nat)
    (roundId : Nat) (bet : Bet) (u : User)
    (hu : lookup_user st.users bet.user_id = some u) :
    (settled_bet winning bet).matched_count =
      matched_count_of bet.selected_numbers winning ∧
    (settled_bet winning bet).payout_multiplier =
      (if 5 ≤ matched_count_of bet.selected_numbers winning
       then (matched_count_of bet.selected_numbers winning : ℚ) * 2 else 0) ∧
    (settled_bet winning bet).payout_amount =
      bet.amount * (settled_bet winning bet).payout_multiplier ∧
    (settled_bet winning bet).is_settled = true ∧
    (settle_bet_commit winning roundId st bet).bets =
      st.bets.map (fun x => if x.id == bet.id then settled_bet winning bet else x) ∧
    (settle_bet_commit winning roundId st bet).rounds = st.rounds ∧
    (0 < (settled_bet winning bet).payout_amount →
      (settle_bet_commit winning roundId st bet).transactions =
        st.transactions ++ [⟨bet.user_id, (settled_bet winning bet).payout_amount,
          "WIN", "COMPLETED", win_details bet.id roundId⟩] ∧
      (settle_bet_commit winning roundId st bet).users =
        write_user st.users bet.user_id
          { u with playground_balance :=
              u.playground_balance + (settled_bet winning bet).payout_amount }) ∧
    ((settled_bet winning bet).payout_amount = 0 →
      (settle_bet_commit winning roundId st bet).transactions = st.transactions ∧
      (settle_bet_commit winning roundId st bet).users = st.users) := by
  refine ⟨rfl, rfl, rfl, rfl, ?_, ?_, ?_, ?_⟩
  · unfold settle_bet_commit
    rw [hu]
    dsimp only
    split <;> rfl
  · unfold settle_bet_commit
    rw [hu]
    dsimp only
    split <;> rfl
  · intro hpos
    unfold settle_bet_commit
    rw [hu]
    dsimp only
    rw [if_pos hpos]
    exact ⟨rfl, rfl⟩
  · intro hz
    unfold settle_bet_commit
    rw [hu]
    dsimp only
    rw [if_neg (by rw [hz]; exact lt_irrefl 0)]
    exact ⟨rfl, rfl⟩

/-- Witness for C1: the five-match stake-10 bet of `stC1` is scored
`matched = 5`, multiplier 10, payout 100; the owner's balance becomes 100
and exactly one WIN transaction of 100 is appended. -/
theorem c1_settlement_scores_and_pays_witness :
    lookup_user stC1.users betC1.user_id = some ⟨1, 0, 0, false⟩ ∧
    (settled_bet w20 betC1).payout_amount = 100 ∧
    (settle_bet_commit w20 1 stC1 betC1).transactions =
      [⟨1, 100, "WIN", "COMPLETED", win_details 1 1⟩] ∧
    (settle_bet_commit w20 1 stC1 betC1).users = [⟨1, 0, 100, false⟩] := by
  have hu : lookup_user stC1.users betC1.user_id = some ⟨1, 0, 0, false⟩ := rfl
  have h := c1_settlement_scores_and_pays stC1 w20 1 betC1 ⟨1, 0, 0, false⟩ hu
  have hp : (settled_bet w20 betC1).payout_amount = 100 := by
    norm_num [settled_bet, matched_count_of, payout_multiplier_of, betC1, w20,
      KENO_DRAW_COUNT]
  obtain ⟨-, -, -, -, -, -, hwin, -⟩ := h
  obtain ⟨htx, husers⟩ := hwin (by rw [hp]; norm_num)
  refine ⟨hu, hp, ?_, ?_⟩
  · rw [htx, hp]
    simp [stC1, betC1]
  · rw [husers, hp]
    norm_num [write_user, stC1, betC1]

/-- C5: a vault-playground transfer conserves the account's total — a
successful transfer of a positive amount moves exactly that amount from
the source sub-balance to the other and atomically appends a paired
transfer-out/transfer-in transaction pair of that amount on the same
account, while a transfer exceeding the source sub-balance fails with
insufficient funds, creating no transaction and changing no balance. -/
theorem c5_transfer_conserves (st : DBState) (tgId : Nat) (amount : ℚ)
    (source : TransferSource) (u : User)
    (hu : lookup_user st.users tgId = some u) (hpos : 0 < amount) :
    (amount ≤ source_balance u source →
      ∃ st' u', transfer_command st tgId amount source = .ok st' ∧
        lookup_user st'.users tgId = some u' ∧
        u'.vault_balance + u'.playground_balance =
          u.vault_balance + u.playground_balance ∧
        source_balance u' source = source_balance u source - amount ∧
        (∃ tOut tIn : Transaction,
          st'.transactions = st.transactions ++ [tOut, tIn] ∧
          tOut.user_id = tgId ∧ tIn.user_id = tgId ∧
          tOut.amount = amount ∧ tIn.amount = amount ∧
          tOut.status = "COMPLETED" ∧ tIn.status = "COMPLETED" ∧
          ((tOut.type = "TRANSFER_OUT_V" ∧ tIn.type = "TRANSFER_IN_P") ∨
           (tOut.type = "TRANSFER_OUT_P" ∧ tIn.type = "TRANSFER_IN_V"))) ∧
        st'.bets = st.bets ∧ st'.rounds = st.rounds) ∧
    (source_balance u source < amount →
      transfer_command st tgId amount source = .error "InsufficientFunds") := by
  have hne : ¬ amount ≤ 0 := not_le.mpr hpos
  have hid : u.telegram_id = tgId := lookup_user_telegram_id st.users tgId u hu
  constructor
  · intro hle
    cases source with
    | vault =>
      have hnlt : ¬ u.vault_balance < amount := not_lt.mpr hle
      have heq : transfer_command st tgId amount .vault = .ok
          { st with
            users := write_user st.users tgId
              { u with vault_balance := u.vault_balance - amount,
                       playground_balance := u.playground_balance + amount }
            transactions := st.transactions ++
              [⟨tgId, amount, "TRANSFER_OUT_V", "COMPLETED", "from: vault"⟩,
               ⟨tgId, amount, "TRANSFER_IN_P", "COMPLETED", "to: play"⟩] } := by
        unfold transfer_command
        rw [if_neg hne, hu]
        dsimp only
        rw [if_neg hnlt]
      refine ⟨_, { u with vault_balance := u.vault_balance - amount,
                          playground_balance := u.playground_balance + amount },
        heq, lookup_write_user st.users tgId u _ hid hu, by ring, rfl,
        ⟨_, _, rfl, rfl, rfl, rfl, rfl, rfl, rfl, Or.inl ⟨rfl, rfl⟩⟩, rfl, rfl⟩
    | play =>
      have hnlt : ¬ u.playground_balance < amount := not_lt.mpr hle
      have heq : transfer_command st tgId amount .play = .ok
          { st with
            users := write_user st.users tgId
              { u with playground_balance := u.playground_balance - amount,
                       vault_balance := u.vault_balance + amount }
            transactions := st.transactions ++
              [⟨tgId, amount, "TRANSFER_OUT_P", "COMPLETED", "from: play"⟩,
               ⟨tgId, amount, "TRANSFER_IN_V", "COMPLETED", "to: vault"⟩] } := by
        unfold transfer_command
        rw [if_neg hne, hu]
        dsimp only
        rw [if_neg hnlt]
      refine ⟨_, { u with playground_balance := u.playground_balance - amount,
                          vault_balance := u.vault_balance + amount },
        heq, lookup_write_user st.users tgId u _ hid hu, by ring, rfl,
        ⟨_, _, rfl, rfl, rfl, rfl, rfl, rfl, rfl, Or.inr ⟨rfl, rfl⟩⟩, rfl, rfl⟩
  · intro hlt
    cases source with
    | vault =>
      have hlt' : u.vault_balance < amount := hlt
      unfold transfer_command
      rw [if_neg hne, hu]
      dsimp only
      rw [if_pos hlt']
    | play =>
      have hlt' : u.playground_balance < amount := hlt
      unfold transfer_command
      rw [if_neg hne, hu]
      dsimp only
      rw [if_pos hlt']

/-- Witness for C5 at the spec's Scenario C: vault balance 50, transfer of
60 from the vault fails with insufficient funds. -/
theorem c5_transfer_conserves_witness :
    (0 : ℚ) < 60 ∧ source_balance ⟨1, 50, 0, false⟩ .vault < 60 ∧
    transfer_command stC5 1 60 .vault = .error "InsufficientFunds" := by
  have hu : lookup_user stC5.users 1 = some ⟨1, 50, 0, false⟩ := rfl
  have hpos : (0 : ℚ) < 60 := by norm_num
  have hlt : source_balance ⟨1, 50, 0, false⟩ TransferSource.vault < 60 := by
    norm_num [source_balance]
  exact ⟨hpos, hlt, (c5_transfer_conserves stC5 1 60 .vault _ hu hpos).2 hlt⟩

/-- C4 (counterexample): round 1 of `stC4` has already been drawn and the
clock (now 0, next draw 30) is inside the next round's open window; a
confirmation that still targets round 1 is accepted anyway — a `Bet` row
for the drawn round is created and the stake debited — where the claim
requires a betting-closed rejection with no bet and no debit. -/
theorem c4_counterexample :
    stC4.rounds = [⟨1, w20⟩] ∧
    confirm_bet stC4 0 30 1 1 [1, 2, 3] 10 1 =
      .ok { users := [⟨1, 0, 90, false⟩]
            transactions := [⟨1, 10, "BET", "COMPLETED", bet_details 1 3⟩]
            rounds := [⟨1, w20⟩]
            bets := [⟨1, 1, 1, 10, [1, 2, 3], 0, 0, 0, false⟩] } := by
  refine ⟨rfl, ?_⟩
  norm_num [confirm_bet, confirm_bet_commit, stC4, lookup_user, write_user,
    BET_CUTOFF_SECONDS, bet_details]

/-- C4 (amended): when bet confirmation runs while the current round's
clock is within the 5-second cutoff (and the balance check did not already
fail), the placement is rejected with the betting-closed error, so no
`Bet` row is created and the stake is not debited; the code checks the
cutoff only against the current `next_draw_time`, not against the window
of the targeted `round_id`. -/
theorem c4_cutoff_rejects_bet (st : DBState) (now next_draw : Int)
    (tgId betRoundId : Nat) (picks : List Nat) (amount : ℚ) (newBetId : Nat)
    (u : User) (hu : lookup_user st.users tgId = some u)
    (hbal : ¬ u.playground_balance < amount)
    (h : next_draw - now ≤ BET_CUTOFF_SECONDS) :
    confirm_bet st now next_draw tgId betRoundId picks amount newBetId =
      .error .BettingClosed := by
  unfold confirm_bet confirm_bet_commit
  rw [hu]
  dsimp only
  rw [if_neg hbal, if_pos h]

/-- Witness for the amended C4: three seconds before the draw the
confirmation is rejected as betting-closed. -/
theorem c4_cutoff_rejects_bet_witness :
    confirm_bet stC4 0 3 1 2 [1, 2, 3] 10 1 = .error .BettingClosed := by
  have hu : lookup_user stC4.users 1 = some ⟨1, 0, 100, false⟩ := rfl
  exact c4_cutoff_rejects_bet stC4 0 3 1 2 [1, 2, 3] 10 1 _ hu
    (by norm_num) (by norm_num [BET_CUTOFF_SECONDS])

/-- A successful `pick_at` index always exists inside the list's bounds. -/
theorem pick_at_isSome : ∀ (l : List Nat) (i : Nat), i < l.length →
    ∃ x rest, pick_at l i = some (x, rest) := by
  intro l
  induction l with
  | nil => intro i hi; simp at hi
  | cons a t ih =>
    intro i hi
    cases i with
    | zero => exact ⟨a, t, rfl⟩
    | succ i =>
      obtain ⟨x, rest, hx⟩ := ih i (by simpa using hi)
      exact ⟨x, a :: rest, by simp [pick_at, hx]⟩

/-- A successful `pick_at` splits the list: the input is a permutation of
the picked element consed onto the remainder. -/
theorem pick_at_perm : ∀ (l : List Nat) (i : Nat) (x : Nat) (rest : List Nat),
    pick_at l i = some (x, rest) → l.Perm (x :: rest) := by
  intro l
  induction l with
  | nil => intro i x rest h; simp [pick_at] at h
  | cons a t ih =>
    intro i x rest h
    cases i with
    | zero =>
      simp [pick_at] at h
      obtain ⟨hx, hr⟩ := h
      subst hx
      subst hr
      exact List.Perm.refl _
    | succ i =>
      cases hp : pick_at t i with
      | none => simp [pick_at, hp] at h
      | some pr =>
        obtain ⟨y, r⟩ := pr
        simp [pick_at, hp] at h
        obtain ⟨hx, hr⟩ := h
        subst hx
        subst hr
        exact ((ih i y r hp).cons a).trans (List.Perm.swap y a r)

/-- The sampler draws exactly `k` values from the pool, all of them pool
members, and without replacement (no duplicates when the pool has none). -/
theorem sample_loop_spec (seed : Nat → Nat) :
    ∀ (k : Nat) (pool : List Nat), k ≤ pool.length →
      (sample_loop seed k pool).length = k ∧
      (∀ x ∈ sample_loop seed k pool, x ∈ pool) ∧
      (pool.Nodup → (sample_loop seed k pool).Nodup) := by
  intro k
  induction k with
  | zero =>
    intro pool _
    exact ⟨rfl, by simp [sample_loop], fun _ => by simp [sample_loop]⟩
  | succ k ih =>
    intro pool hk
    have hpos : 0 < pool.length := Nat.lt_of_lt_of_le (Nat.succ_pos k) hk
    have hi : seed k % pool.length < pool.length := Nat.mod_lt _ hpos
    obtain ⟨x, rest, hx⟩ := pick_at_isSome pool _ hi
    have hperm := pick_at_perm pool _ x rest hx
    have hlen : pool.length = rest.length + 1 := by
      have := hperm.length_eq
      simpa using this
    have hk' : k ≤ rest.length := by omega
    obtain ⟨h1, h2, h3⟩ := ih rest hk'
    have hs : sample_loop seed (k + 1) pool = x :: sample_loop seed k rest := by
      simp only [sample_loop, hx]
    refine ⟨?_, ?_, ?_⟩
    · rw [hs]
      simp [h1]
    · intro y hy
      rw [hs] at hy
      rcases List.mem_cons.mp hy with hy | hy
      · subst hy
        exact hperm.symm.subset (List.mem_cons_self _ _)
      · exact hperm.symm.subset (List.mem_cons_of_mem _ (h2 y hy))
    · intro hnd
      have hnd' : (x :: rest).Nodup := hperm.nodup_iff.mp hnd
      rw [hs]
      refine List.nodup_cons.mpr ⟨?_, h3 hnd'.of_cons⟩
      intro hxin
      exact (List.nodup_cons.mp hnd').1 (h2 x hxin)

/-- A successful `random.sample` call returns `draw_count` distinct values
of `[1, domain_size]`. -/
theorem random_sample_ok (seed : Nat → Nat) (n k : Int) (l : List Nat)
    (h : random_sample seed n k = .ok l) :
    l.length = k.toNat ∧ l.Nodup ∧ ∀ x ∈ l, 1 ≤ x ∧ x ≤ n.toNat := by
  unfold random_sample at h
  by_cases hc : k < 0 ∨ (((List.range' 1 n.toNat).length : Nat) : Int) < k
  · rw [if_pos hc] at h
    cases h
  · rw [if_neg hc] at h
    injection h with h
    rw [not_or, not_lt, not_lt] at hc
    obtain ⟨hk0, hkle⟩ := hc
    rw [List.length_range'] at hkle
    have hkn : k.toNat ≤ (List.range' 1 n.toNat).length := by
      rw [List.length_range']
      omega
    obtain ⟨h1, h2, h3⟩ := sample_loop_spec seed k.toNat (List.range' 1 n.toNat) hkn
    subst h
    refine ⟨h1, h3 (List.nodup_range' 1 n.toNat), ?_⟩
    intro x hx
    have hm := h2 x hx
    rw [List.mem_range'_1] at hm
    omega

/-- The empty database. -/
def stC8 : DBState := { users := [], transactions := [], rounds := [], bets := [] }

/-- C8 (counterexample): a draw count of 0 is non-positive, yet the
sampler accepts it and returns an empty draw instead of failing with
invalid parameters as the claim states. -/
theorem c8_counterexample : random_sample seed0 80 0 = .ok [] := rfl

/-- C8 (amended): every executed draw is an ascending list of exactly
`KENO_DRAW_COUNT` distinct values inside `[1, KENO_MAX_NUMBERS]`, sampled
without replacement; and the sampler fails whenever the draw count is
negative or exceeds the (clamped) domain size — which covers every
non-positive domain with a positive count — while a draw count of zero is
accepted with an empty draw. -/
theorem c8_draw_shape_and_params :
    (∀ (st : DBState) (roundId : Nat) (seed : Nat → Nat) (st' : DBState) (w : List Nat),
      execute_keno_draw st roundId seed = .ok (st', w) →
      w.length = KENO_DRAW_COUNT ∧ w.Nodup ∧
      (∀ x ∈ w, 1 ≤ x ∧ x ≤ KENO_MAX_NUMBERS) ∧ w.Sorted (· ≤ ·)) ∧
    (∀ (seed : Nat → Nat) (n k : Int), k < 0 ∨ (n.toNat : Int) < k →
      random_sample seed n k =
        .error "ValueError: Sample larger than population or is negative") := by
  constructor
  · intro st roundId seed st' w h
    unfold execute_keno_draw at h
    cases hrs : random_sample seed (KENO_MAX_NUMBERS : Int) (KENO_DRAW_COUNT : Int) with
    | error e =>
      rw [hrs] at h
      cases h
    | ok nums =>
      rw [hrs] at h
      dsimp only at h
      by_cases hdup : st.rounds.any (fun r => r.round_id == roundId) = true
      · rw [if_pos hdup] at h
        cases h
      · rw [if_neg hdup] at h
        rw [Except.ok.injEq, Prod.mk.injEq] at h
        obtain ⟨-, hw⟩ := h
        subst hw
        obtain ⟨h1, h2, h3⟩ :=
          random_sample_ok seed (KENO_MAX_NUMBERS : Int) (KENO_DRAW_COUNT : Int) nums hrs
        have hperm := List.perm_insertionSort (· ≤ ·) nums
        refine ⟨?_, hperm.nodup_iff.mpr h2, ?_, List.sorted_insertionSort _ _⟩
        · rw [hperm.length_eq, h1]
          rfl
        · intro x hx
          have := h3 x (hperm.mem_iff.mp hx)
          simpa using this
  · intro seed n k hk
    have hcond : k < 0 ∨ (((List.range' 1 n.toNat).length : Nat) : Int) < k := by
      rcases hk with hk | hk
      · exact Or.inl hk
      · right
        rwa [List.length_range']
    unfold random_sample
    rw [if_pos hcond]

/-- Witness for C8: the all-zero seed on an empty database draws exactly
`[1, …, 20]`, which has the claimed shape; and sampling 20 values from a
domain of size 0 fails. -/
theorem c8_draw_shape_and_params_witness :
    execute_keno_draw stC8 1 seed0 = .ok ({ stC8 with rounds := [⟨1, w20⟩] }, w20) ∧
    (w20.length = KENO_DRAW_COUNT ∧ w20.Nodup ∧
      (∀ x ∈ w20, 1 ≤ x ∧ x ≤ KENO_MAX_NUMBERS) ∧ w20.Sorted (· ≤ ·)) ∧
    random_sample seed0 0 20 =
      .error "ValueError: Sample larger than population or is negative" := by
  have hok : execute_keno_draw stC8 1 seed0 =
      .ok ({ stC8 with rounds := [⟨1, w20⟩] }, w20) := rfl
  exact ⟨hok, c8_draw_shape_and_params.1 stC8 1 seed0 _ w20 hok,
    c8_draw_shape_and_params.2 seed0 0 20 (Or.inr (by norm_num))⟩

/-- The pick-filtering fold keeps its accumulator duplicate-free and inside
the draw domain. -/
theorem filter_picks_fold_invariant (tokens : List Int) (acc : List Nat)
    (hnd : acc.Nodup) (hra : ∀ x ∈ acc, 1 ≤ x ∧ x ≤ KENO_MAX_NUMBERS) :
    (List.foldl
      (fun acc p =>
        if 1 ≤ p ∧ p ≤ (KENO_MAX_NUMBERS : Int) ∧ p.toNat ∉ acc then acc ++ [p.toNat]
        else acc) acc tokens).Nodup ∧
    ∀ x ∈ List.foldl
      (fun acc p =>
        if 1 ≤ p ∧ p ≤ (KENO_MAX_NUMBERS : Int) ∧ p.toNat ∉ acc then acc ++ [p.toNat]
        else acc) acc tokens, 1 ≤ x ∧ x ≤ KENO_MAX_NUMBERS := by
  induction tokens generalizing acc with
  | nil => exact ⟨hnd, hra⟩
  | cons p rest ih =>
    simp only [List.foldl_cons]
    by_cases hc : 1 ≤ p ∧ p ≤ (KENO_MAX_NUMBERS : Int) ∧ p.toNat ∉ acc
    · rw [if_pos hc]
      apply ih
      · refine List.Nodup.append hnd (List.nodup_singleton _) ?_
        intro a ha hb
        rw [List.mem_singleton] at hb
        exact hc.2.2 (hb ▸ ha)
      · intro x hx
        rcases List.mem_append.mp hx with hx | hx
        · exact hra x hx
        · have hxp : x = p.toNat := by simpa using hx
          subst hxp
          have h1 := hc.1
          have h2 := hc.2.1
          unfold KENO_MAX_NUMBERS at h2 ⊢
          omega
    · rw [if_neg hc]
      exact ih acc hnd hra

/-- C6 (amended): bet submission does not reject bad values — it silently
drops out-of-range and duplicate values, then accepts exactly when the
remaining picks number between 1 and `KENO_MAX_PICKS`, in which case the
accepted pick set is the sorted filtered list (unique, inside the
domain); the stake is not validated against the minimum — the
confirmation keyboard fixes it to `MIN_BET_AMOUNT`. -/
theorem c6_picks_filtered_not_rejected (tokens : List Int) :
    (∀ picks, handle_picks_and_bet tokens = .ok picks →
      picks = (filter_picks tokens).insertionSort (· ≤ ·) ∧
      picks.Nodup ∧ picks.Sorted (· ≤ ·) ∧
      (∀ x ∈ picks, 1 ≤ x ∧ x ≤ KENO_MAX_NUMBERS) ∧
      1 ≤ picks.length ∧ picks.length ≤ KENO_MAX_PICKS) ∧
    ((filter_picks tokens).length = 0 ∨ KENO_MAX_PICKS < (filter_picks tokens).length →
      handle_picks_and_bet tokens = .error "Invalid number of picks") ∧
    keyboard_bet_amount = MIN_BET_AMOUNT := by
  have hinv := filter_picks_fold_invariant tokens [] List.nodup_nil (by simp)
  have hnd : (filter_picks tokens).Nodup := hinv.1
  have hra : ∀ x ∈ filter_picks tokens, 1 ≤ x ∧ x ≤ KENO_MAX_NUMBERS := hinv.2
  have hperm := List.perm_insertionSort (· ≤ ·) (filter_picks tokens)
  refine ⟨?_, ?_, rfl⟩
  · intro picks hok
    unfold handle_picks_and_bet at hok
    by_cases hcond : 1 ≤ ((filter_picks tokens).insertionSort (· ≤ ·)).length ∧
        ((filter_picks tokens).insertionSort (· ≤ ·)).length ≤ KENO_MAX_PICKS
    · rw [if_pos hcond] at hok
      injection hok with hok
      subst hok
      exact ⟨rfl, hperm.nodup_iff.mpr hnd, List.sorted_insertionSort _ _,
        fun x hx => hra x (hperm.mem_iff.mp hx), hcond.1, hcond.2⟩
    · rw [if_neg hcond] at hok
      cases hok
  · intro hbad
    have hnc : ¬(1 ≤ ((filter_picks tokens).insertionSort (· ≤ ·)).length ∧
        ((filter_picks tokens).insertionSort (· ≤ ·)).length ≤ KENO_MAX_PICKS) := by
      rw [hperm.length_eq]
      unfold KENO_MAX_PICKS at hbad ⊢
      rcases hbad with h | h <;> omega
    unfold handle_picks_and_bet
    rw [if_neg hnc]

/-- Witness for the amended C6: the spec's example submission `5 12 77 33`
is accepted as the sorted unique in-domain pick set `[5, 12, 33, 77]`. -/
theorem c6_picks_filtered_not_rejected_witness :
    handle_picks_and_bet [5, 12, 77, 33] = .ok [5, 12, 33, 77] ∧
    [5, 12, 33, 77].Nodup ∧
    (∀ x ∈ [5, 12, 33, 77], 1 ≤ x ∧ x ≤ KENO_MAX_NUMBERS) ∧
    List.Sorted (· ≤ ·) [5, 12, 33, 77] := by
  have hok : handle_picks_and_bet [5, 12, 77, 33] = .ok [5, 12, 33, 77] := rfl
  have h := (c6_picks_filtered_not_rejected [5, 12, 77, 33]).1 [5, 12, 33, 77] hok
  exact ⟨hok, h.2.1, h.2.2.2.1, h.2.2.1⟩

/-- C9 (failing input): with playground balance 10 and two concurrent
stake-10 confirmations, the read-read-commit-commit interleaving of
`button_handler` lets both placements pass the balance check against the
same stale snapshot: both succeed, two `Bet` rows and two BET transactions
are created, and the balance ends at 0 although 20 was staked — not
exactly one success with the other receiving insufficient funds. -/
theorem c9_double_spend_interleaving :
    race_two_bets stC9 0 30 1 1 [1, 2, 3] 10 =
      ({ users := [⟨1, 0, 0, false⟩]
         transactions := [⟨1, 10, "BET", "COMPLETED", bet_details 1 3⟩,
                          ⟨1, 10, "BET", "COMPLETED", bet_details 1 3⟩]
         rounds := []
         bets := [⟨1, 1, 1, 10, [1, 2, 3], 0, 0, 0, false⟩,
                  ⟨2, 1, 1, 10, [1, 2, 3], 0, 0, 0, false⟩] }, true, true) := by
  norm_num [race_two_bets, confirm_bet_commit, stC9, lookup_user, write_user,
    BET_CUTOFF_SECONDS, bet_details]

/-- C7: settlement is idempotent per round — when every bet of the round is
already settled, invoking `settle_all_bets` again changes nothing (no new
transactions, no balance change) and returns normally; only bets with
`is_settled = false` are ever fetched for processing. -/
theorem c7_settlement_idempotent (st : DBState) (roundId : Nat)
    (winning : List Nat) (notify_ok : Bet → Bool)
    (h : ∀ b ∈ st.bets, b.round_id = roundId → b.is_settled = true) :
    settle_all_bets st roundId winning notify_ok = (st, true) := by
  have hf : st.bets.filter (fun b => b.round_id == roundId && !b.is_settled) = [] := by
    rw [List.filter_eq_nil_iff]
    intro b hb
    simp only [Bool.and_eq_true, beq_iff_eq, Bool.not_eq_true', not_and]
    intro hr hs
    rw [h b hb hr] at hs
    exact absurd hs (by simp)
  unfold settle_all_bets
  rw [hf]
  rfl

/-- Witness for C7 at the concrete already-settled round of `stC7`. -/
theorem c7_settlement_idempotent_witness :
    settle_all_bets stC7 1 w20 (fun _ => true) = (stC7, true) :=
  c7_settlement_idempotent stC7 1 w20 (fun _ => true)
    (by intro b hb hr; simp [stC7] at hb; subst hb; rfl)

/-- C10: with an unavailable Redis client or an empty cache,
`get_current_round_id` falls back to 1 and `get_next_draw_time` to the
current time plus `GAME_INTERVAL_SECONDS = 60`, whatever round had been
reached before; and `run_keno_game` seeds an empty cache with round 1 and
a first draw 10 seconds ahead. -/
theorem c10_cache_fallback (now : Int) (t : Option Int) (r : Option Nat) :
    get_current_round_id none = 1 ∧
    get_current_round_id (some ⟨none, t⟩) = 1 ∧
    get_next_draw_time none now = now + GAME_INTERVAL_SECONDS ∧
    get_next_draw_time (some ⟨r, none⟩) now = now + GAME_INTERVAL_SECONDS ∧
    GAME_INTERVAL_SECONDS = 60 ∧
    seed_round_state (some ⟨none, t⟩) now = some ⟨some 1, some (now + 10)⟩ :=
  ⟨rfl, rfl, rfl, rfl, rfl, rfl⟩

/-- C2 (failing input): settling `stC2` with the notification for bet 1
failing commits bet 1's WIN credit and settled flag (they are not rolled
back), but the unguarded `send_message` raises out of `settle_all_bets`
(second component `false`), so bet 2 of the same round is left
unsettled — the failure does block settlement of the remaining bets. -/
theorem c2_notification_failure_blocks_rest :
    c2_result.2 = false ∧
    c2_result.1.users = [⟨1, 0, 100, false⟩] ∧
    c2_result.1.transactions = [⟨1, 100, "WIN", "COMPLETED", win_details 1 1⟩] ∧
    c2_result.1.bets = [⟨1, 1, 1, 10, [1, 2, 3, 4, 5], 5, 10, 100, true⟩,
                        ⟨2, 1, 1, 10, [21, 22, 23, 24, 25], 0, 0, 0, false⟩] := by
  norm_num [c2_result, stC2, w20, c2_notify, settle_all_bets, settle_loop,
    settle_bet_commit, settled_bet, matched_count_of, payout_multiplier_of,
    lookup_user, write_user, KENO_DRAW_COUNT]

/-- C3 (failing input): re-running the draw step for round 1 of `stC3`,
which already has a persisted winning set, does not detect the existing
draw — `execute_keno_draw` unconditionally inserts a second `KenoRound`
row, the unique constraint on `round_id` raises, and the exception
propagates before `settle_all_bets` is reached, so the round's pending bet
is never settled (the persisted numbers are not overwritten only because
the constraint rejects the insert). -/
theorem c3_rerun_draw_raises_before_settlement :
    execute_keno_draw stC3 1 seed0 = .error dup_round_error ∧
    draw_and_settle stC3 1 seed0 (fun _ => true) = .error dup_round_error :=
  ⟨rfl, rfl⟩

/-- C6 (counterexample): a submission with a duplicated value and one with
an out-of-range value are not rejected with an invalid-pick error as the
claim states — `handle_picks_and_bet` silently drops the offending values
and accepts the modified pick set. -/
theorem c6_counterexample :
    handle_picks_and_bet [5, 5] = .ok [5] ∧
    handle_picks_and_bet [81, 3] = .ok [3] :=
  ⟨rfl, rfl⟩

end Keno
